import Mathlib

/-!
The gitproviderreceiver: metric configuration and scrape aggregation.

A shallow embedding of

* `pkg/receiver/gitproviderreceiver/internal/metadata/generated_config.go`
  (the generated enablement configuration: `MetricConfig`, `MetricsConfig`,
  `ResourceAttributesConfig`, `MetricsBuilderConfig`, their defaults and
  `MetricConfig.Unmarshal`), and
* the scrape cycle exercised by
  `receiver/gitproviderreceiver/internal/scraper/githubscraper/github_scraper_test.go`.

Go structs become Lean structures with the same field names.  The
`mapstructure` tags of a struct are kept as a table from the struct's fields
to their configuration keys.  A Go method with a pointer receiver that returns
`error` becomes a function returning the receiver after the call together with
`Option Err` (`none` is Go's `nil` error).
-/

namespace Metadata

/-! ## generated_config.go -/

/-- MetricConfig provides common config for a particular metric
(generated_config.go, lines 8-12). -/
structure MetricConfig where
  Enabled : Bool
  enabledSetByUser : Bool
  deriving DecidableEq, Repr

/-- The collaborator `*confmap.Conf` of `go.opentelemetry.io/collector/confmap`,
as far as `MetricConfig.Unmarshal` calls it.  `Unmarshal p ms` stands for
`parser.Unmarshal(ms, confmap.WithErrorUnused())`: the decoder reaches a struct
through its exported, tagged fields only, so it is given the receiver and
returns the value it leaves in `Enabled` (it may have written the field even
when it fails) and its error.  `IsSet p k` stands for `parser.IsSet(k)`. -/
structure ConfOps (Conf Err : Type) where
  Unmarshal : Conf → MetricConfig → Bool × Option Err
  IsSet : Conf → String → Bool

/-- The method `func (ms *MetricConfig) Unmarshal(parser *confmap.Conf) error`
(generated_config.go, lines 14-24).  A nil `parser` is `none`.  The result is
the receiver after the call and the returned error. -/
def MetricConfig.Unmarshal {Conf Err : Type} (ops : ConfOps Conf Err)
    (ms : MetricConfig) (parser : Option Conf) : MetricConfig × Option Err :=
  match parser with
  | none => (ms, none)
  | some p =>
    let decoded := ops.Unmarshal p ms
    let ms1 : MetricConfig := { ms with Enabled := decoded.1 }
    match decoded.2 with
    | some err => (ms1, some err)
    | none => ({ ms1 with enabledSetByUser := ops.IsSet p "enabled" }, none)

/-- MetricsConfig provides config for gitprovider metrics
(generated_config.go, lines 27-33). -/
structure MetricsConfig where
  GitRepositoryBranchCount : MetricConfig
  GitRepositoryBranchTime : MetricConfig
  GitRepositoryContributorCount : MetricConfig
  GitRepositoryCount : MetricConfig
  GitRepositoryPullRequestTime : MetricConfig
  deriving DecidableEq, Repr

/-- The fields of the struct `MetricsConfig`, one constructor per declared
field. -/
inductive MetricsField where
  | GitRepositoryBranchCount
  | GitRepositoryBranchTime
  | GitRepositoryContributorCount
  | GitRepositoryCount
  | GitRepositoryPullRequestTime
  deriving DecidableEq, Repr

/-- All fields of `MetricsConfig`, in declaration order. -/
def MetricsField.all : List MetricsField :=
  [.GitRepositoryBranchCount, .GitRepositoryBranchTime, .GitRepositoryContributorCount,
   .GitRepositoryCount, .GitRepositoryPullRequestTime]

/-- The Go identifier of a field of `MetricsConfig`. -/
def MetricsField.goName : MetricsField → String
  | .GitRepositoryBranchCount => "GitRepositoryBranchCount"
  | .GitRepositoryBranchTime => "GitRepositoryBranchTime"
  | .GitRepositoryContributorCount => "GitRepositoryContributorCount"
  | .GitRepositoryCount => "GitRepositoryCount"
  | .GitRepositoryPullRequestTime => "GitRepositoryPullRequestTime"

/-- The `mapstructure` tag of a field of `MetricsConfig`: the configuration key
the metric is configured under (generated_config.go, lines 28-32). -/
def MetricsField.key : MetricsField → String
  | .GitRepositoryBranchCount => "git.repository.branch.count"
  | .GitRepositoryBranchTime => "git.repository.branch.time"
  | .GitRepositoryContributorCount => "git.repository.contributor.count"
  | .GitRepositoryCount => "git.repository.count"
  | .GitRepositoryPullRequestTime => "git.repository.pull_request.time"

/-- Field selection `cfg.<field>` on a `MetricsConfig`. -/
def MetricsField.get (cfg : MetricsConfig) : MetricsField → MetricConfig
  | .GitRepositoryBranchCount => cfg.GitRepositoryBranchCount
  | .GitRepositoryBranchTime => cfg.GitRepositoryBranchTime
  | .GitRepositoryContributorCount => cfg.GitRepositoryContributorCount
  | .GitRepositoryCount => cfg.GitRepositoryCount
  | .GitRepositoryPullRequestTime => cfg.GitRepositoryPullRequestTime

/-- Resolution of a Go selector `cfg.Metrics.<name>`: the field of
`MetricsConfig` with that identifier, `none` when the struct declares no such
field (the Go compiler rejects the selector). -/
def MetricsConfig.fieldByName (name : String) : Option MetricsField :=
  MetricsField.all.find? (fun f => f.goName == name)

/-- The Go assignment `cfg.<field>.Enabled = b` on a `MetricsConfig` (the form
of github_scraper_test.go, line 187). -/
def MetricsField.setEnabled (cfg : MetricsConfig) (b : Bool) : MetricsField → MetricsConfig
  | .GitRepositoryBranchCount =>
    { cfg with GitRepositoryBranchCount := { cfg.GitRepositoryBranchCount with Enabled := b } }
  | .GitRepositoryBranchTime =>
    { cfg with GitRepositoryBranchTime := { cfg.GitRepositoryBranchTime with Enabled := b } }
  | .GitRepositoryContributorCount =>
    { cfg with
      GitRepositoryContributorCount := { cfg.GitRepositoryContributorCount with Enabled := b } }
  | .GitRepositoryCount =>
    { cfg with GitRepositoryCount := { cfg.GitRepositoryCount with Enabled := b } }
  | .GitRepositoryPullRequestTime =>
    { cfg with
      GitRepositoryPullRequestTime := { cfg.GitRepositoryPullRequestTime with Enabled := b } }

/-- The function `DefaultMetricsConfig` (generated_config.go, lines 35-53).
A field left out of a Go composite literal has its zero value, `false`. -/
def DefaultMetricsConfig : MetricsConfig :=
  { GitRepositoryBranchCount := { Enabled := true, enabledSetByUser := false }
    GitRepositoryBranchTime := { Enabled := true, enabledSetByUser := false }
    GitRepositoryContributorCount := { Enabled := false, enabledSetByUser := false }
    GitRepositoryCount := { Enabled := true, enabledSetByUser := false }
    GitRepositoryPullRequestTime := { Enabled := true, enabledSetByUser := false } }

/-- ResourceAttributeConfig provides common config for a particular resource
attribute (generated_config.go, lines 56-58). -/
structure ResourceAttributeConfig where
  Enabled : Bool
  deriving DecidableEq, Repr

/-- ResourceAttributesConfig provides config for gitprovider resource
attributes (generated_config.go, lines 61-64). -/
structure ResourceAttributesConfig where
  GitVendorName : ResourceAttributeConfig
  OrganizationName : ResourceAttributeConfig
  deriving DecidableEq, Repr

/-- The fields of the struct `ResourceAttributesConfig`. -/
inductive ResourceAttributesField where
  | GitVendorName
  | OrganizationName
  deriving DecidableEq, Repr

/-- All fields of `ResourceAttributesConfig`, in declaration order. -/
def ResourceAttributesField.all : List ResourceAttributesField :=
  [.GitVendorName, .OrganizationName]

/-- The `mapstructure` tag of a field of `ResourceAttributesConfig`
(generated_config.go, lines 62-63). -/
def ResourceAttributesField.key : ResourceAttributesField → String
  | .GitVendorName => "git.vendor.name"
  | .OrganizationName => "organization.name"

/-- Field selection on a `ResourceAttributesConfig`. -/
def ResourceAttributesField.get (cfg : ResourceAttributesConfig) :
    ResourceAttributesField → ResourceAttributeConfig
  | .GitVendorName => cfg.GitVendorName
  | .OrganizationName => cfg.OrganizationName

/-- The function `DefaultResourceAttributesConfig`
(generated_config.go, lines 66-75). -/
def DefaultResourceAttributesConfig : ResourceAttributesConfig :=
  { GitVendorName := { Enabled := true }
    OrganizationName := { Enabled := true } }

/-- MetricsBuilderConfig is a configuration for gitprovider metrics builder
(generated_config.go, lines 78-81). -/
structure MetricsBuilderConfig where
  Metrics : MetricsConfig
  ResourceAttributes : ResourceAttributesConfig
  deriving DecidableEq, Repr

/-- The function `DefaultMetricsBuilderConfig` (generated_config.go, lines 83-88). -/
def DefaultMetricsBuilderConfig : MetricsBuilderConfig :=
  { Metrics := DefaultMetricsConfig
    ResourceAttributes := DefaultResourceAttributesConfig }

/-! ## A concrete `confmap.Conf`, for evaluating `Unmarshal` -/

/-- A configuration map that holds at most the key `enabled`, with a boolean
value: the maps `{}` (`enabled := none`) and `{enabled: b}`
(`enabled := some b`) of a `confmap.Conf`. -/
structure EnabledConf where
  enabled : Option Bool
  deriving DecidableEq, Repr

/-- Decoding of an `EnabledConf` into a `MetricConfig`: the boolean under
`enabled`, when the key is there, is written to `Enabled`; the empty map
leaves the field as it is.  Neither map has a key the struct does not use, so
there is no error. -/
def EnabledConf.decode (c : EnabledConf) (ms : MetricConfig) : Bool × Option String :=
  match c.enabled with
  | some b => (b, none)
  | none => (ms.Enabled, none)

/-- The operations of `confmap.Conf` on an `EnabledConf`: the only key that
can be set is `enabled`. -/
def enabledConfOps : ConfOps EnabledConf String :=
  { Unmarshal := EnabledConf.decode
    IsSet := fun c k => k == "enabled" && c.enabled.isSome }

/-! ## The metric catalog of the specification -/

/-- Modelled from the spec: the metric catalog of section 6 (External
interfaces), which is not part of the source.  The catalog name of the metric
each field of `MetricsConfig` configures. -/
def catalogMetricName : MetricsField → String
  | .GitRepositoryBranchCount => "repository.branch.count"
  | .GitRepositoryBranchTime => "repository.branch.time"
  | .GitRepositoryContributorCount => "repository.contributor.count"
  | .GitRepositoryCount => "repository.count"
  | .GitRepositoryPullRequestTime => "repository.pull_request.time"

/-- Modelled from the spec: the resource-attribute rows of the metric catalog
of section 6, which is not part of the source.  The catalog name of the
resource attribute each field of `ResourceAttributesConfig` configures. -/
def catalogResourceAttributeName : ResourceAttributesField → String
  | .GitVendorName => "vendor.name"
  | .OrganizationName => "organization.name"

end Metadata

namespace Githubscraper

open Metadata

/-! ## The scrape cycle

The scraper itself (`github_scraper.go` and its helpers) is not among the
source files; only its test is.  The definitions of this section follow the
specification's description of the scrape cycle (sections 3 to 7). -/

/-- Modelled from the spec: the metrics the MetricAggregator of section 4.5
reduces the collected entities to (the scraper's metric builder is missing
from the source). -/
inductive Metric where
  | repositoryCount
  | branchCount
  | branchTime
  | contributorCount
  | pullRequestTime
  | vulnerabilityAlertCount
  deriving DecidableEq, Repr

/-- Modelled from the spec: the resource attributes of section 3 (vendor name,
organization name); the scraper's resource builder is missing from the source. -/
inductive ResourceAttribute where
  | vendorName
  | organizationName
  deriving DecidableEq, Repr

/-- Modelled from the spec: the config capability interface of section 6, a
per-metric enabled flag and a per-resource-attribute enabled flag, as the
missing scraper consults it. -/
structure Capability where
  metricEnabled : Metric → Bool
  attributeEnabled : ResourceAttribute → Bool

/-- Modelled from the spec: the capability set a `MetricsBuilderConfig`
supplies to the missing scraper.  `MetricsConfig` has no field for the
vulnerability-alert count, so that flag is passed next to the configuration. -/
def capabilityOf (cfg : MetricsBuilderConfig) (cveCount : Bool) : Capability :=
  { metricEnabled := fun m =>
      match m with
      | .repositoryCount => cfg.Metrics.GitRepositoryCount.Enabled
      | .branchCount => cfg.Metrics.GitRepositoryBranchCount.Enabled
      | .branchTime => cfg.Metrics.GitRepositoryBranchTime.Enabled
      | .contributorCount => cfg.Metrics.GitRepositoryContributorCount.Enabled
      | .pullRequestTime => cfg.Metrics.GitRepositoryPullRequestTime.Enabled
      | .vulnerabilityAlertCount => cveCount
    attributeEnabled := fun a =>
      match a with
      | .vendorName => cfg.ResourceAttributes.GitVendorName.Enabled
      | .organizationName => cfg.ResourceAttributes.OrganizationName.Enabled }

/-- Modelled from the spec: the entity Page of section 3, one response page of
a paginated connection (ordered nodes, cursor, has-next-page flag); the
scraper's generated query types are missing from the source. -/
structure Page (α : Type) where
  nodes : List α
  cursor : String
  hasNextPage : Bool

/-- Modelled from the spec: the entity Repository of section 3. -/
structure Repository where
  name : String
  deriving DecidableEq, Repr

/-- Modelled from the spec: the entity Branch of section 3, with the inline
compare-to-default-branch summary of section 4.3. -/
structure Branch where
  name : String
  aheadBy : Nat
  behindBy : Nat
  deriving DecidableEq, Repr

/-- Modelled from the spec: the entity Commit of section 3. -/
structure Commit where
  committedDate : Int
  additions : Nat
  deletions : Nat
  deriving DecidableEq, Repr

/-- Modelled from the spec: the entity PullRequest of section 3 (merged flag,
open and merge timestamps). -/
structure PullRequest where
  merged : Bool
  createdAt : Int
  mergedAt : Int
  deriving DecidableEq, Repr

/-- Modelled from the spec: the entity Contributor of section 3. -/
structure Contributor where
  id : Int
  deriving DecidableEq, Repr

/-- Modelled from the spec: the severity levels of a vulnerability alert
(section 3). -/
inductive Severity where
  | LOW
  | MODERATE
  | HIGH
  | CRITICAL
  deriving DecidableEq, Repr

/-- Modelled from the spec: the entity VulnerabilityAlert of section 3. -/
structure VulnerabilityAlert where
  severity : Severity
  deriving DecidableEq, Repr

/-- Modelled from the spec: the entity MetricDataPoint of section 3 (metric
name, value, resource attributes, timestamp). -/
structure MetricDataPoint where
  metric : Metric
  value : Int
  attributes : List (ResourceAttribute × String)
  timestamp : Int
  deriving DecidableEq, Repr

/-- Modelled from the spec: the query and org-lookup collaborators of section
6, which the missing scraper calls.  Every paged query takes the cursor (the
empty cursor requests the first page) and returns a page or an error;
`resolveOrg` returns the resolved login, `none` when the organization does not
exist, or a transport error. -/
structure Queries where
  resolveOrg : String → Except String (Option String)
  searchRepositories : String → Except String (Page Repository)
  branches : String → String → Except String (Page Branch)
  pullRequests : String → String → Except String (Page PullRequest)
  contributors : String → String → Except String (Page Contributor)
  vulnerabilityAlerts : String → String → Except String (Page VulnerabilityAlert)
  commitHistory : String → String → String → Except String (Page Commit)

/-- Modelled from the spec: the fatal errors of the taxonomy of section 7. -/
inductive ScrapeError where
  | OrgNotFound
  | OrgValidationError
  | RepositoryListError
  deriving DecidableEq, Repr

/-- Modelled from the spec: the pagination protocol of sections 4.2 and 4.3
(the scraper's paging loops are missing from the source).  Starting from
`cursor`, each page's nodes are appended to what was merged so far and the
next page is requested with the returned cursor while has-next-page is set.  A
page-fetch error stops the walk and is returned with what was merged so far.
The walk has no page limit: `fuel` bounds the number of requests of this
model, and `none` means the bound was reached before the last page. -/
def paginate {α : Type} (fetch : String → Except String (Page α)) :
    Nat → String → List α → Option (List α × Option String)
  | 0, _, _ => none
  | fuel + 1, cursor, acc =>
    match fetch cursor with
    | .error e => some (acc, some e)
    | .ok page =>
      if page.hasNextPage then paginate fetch fuel page.cursor (acc ++ page.nodes)
      else some (acc ++ page.nodes, none)

/-- Modelled from the spec: the RepositoryLister of section 4.2.  A page-fetch
failure fails the whole listing. -/
def listRepositories (fuel : Nat) (q : Queries) :
    Option (Except ScrapeError (List Repository)) :=
  match paginate q.searchRepositories fuel "" [] with
  | none => none
  | some (_, some _) => some (.error .RepositoryListError)
  | some (repos, none) => some (.ok repos)

/-- Modelled from the spec: a branch with the staleness duration the
CommitHistoryResolver of section 4.4 computed for it, if any. -/
structure BranchData where
  branch : Branch
  staleness : Option Int
  deriving DecidableEq, Repr

/-- Modelled from the spec: what the four collectors of section 4.3 gathered
for one repository. -/
structure RepositoryData where
  repository : Repository
  branches : List BranchData
  pullRequests : List PullRequest
  contributors : List Contributor
  alerts : List VulnerabilityAlert
  deriving DecidableEq, Repr

/-- Modelled from the spec: the CommitHistoryResolver of section 4.4.  A branch
with behind-by 0 is current and has no staleness.  For a branch that is
behind, the commit history is resolved and the staleness is the time from the
oldest commit of the resolved window to `now`; a failed resolution leaves this
one branch without a staleness value. -/
def resolveStaleness (fuel : Nat) (now : Int) (q : Queries) (repo : String)
    (b : Branch) : Option BranchData :=
  if b.behindBy = 0 then some { branch := b, staleness := none }
  else
    match paginate (q.commitHistory repo b.name) fuel "" [] with
    | none => none
    | some (_, some _) => some { branch := b, staleness := none }
    | some (commits, none) =>
      some { branch := b
             staleness := (commits.getLast?).map (fun c => now - c.committedDate) }

/-- Modelled from the spec: the CommitHistoryResolver run for each branch of a
repository, in the order the branches were discovered. -/
def resolveBranches (fuel : Nat) (now : Int) (q : Queries) (repo : String) :
    List Branch → Option (List BranchData)
  | [] => some []
  | b :: bs =>
    match resolveStaleness fuel now q repo b, resolveBranches fuel now q repo bs with
    | some d, some ds => some (d :: ds)
    | _, _ => none

/-- Modelled from the spec: the four per-repository collectors of section 4.3
followed by the CommitHistoryResolver.  A collector that fails keeps what it
merged so far; the other collectors are unaffected. -/
def collectRepository (fuel : Nat) (now : Int) (q : Queries) (r : Repository) :
    Option RepositoryData :=
  match paginate (q.branches r.name) fuel "" [],
        paginate (q.pullRequests r.name) fuel "" [],
        paginate (q.contributors r.name) fuel "" [],
        paginate (q.vulnerabilityAlerts r.name) fuel "" [] with
  | some (bs, _), some (prs, _), some (cs, _), some (as, _) =>
    match resolveBranches fuel now q r.name bs with
    | none => none
    | some bds =>
      some { repository := r, branches := bds, pullRequests := prs,
             contributors := cs, alerts := as }
  | _, _, _, _ => none

/-- Modelled from the spec: the collectors run for each repository, in the
order the repositories were discovered. -/
def collectRepositories (fuel : Nat) (now : Int) (q : Queries) :
    List Repository → Option (List RepositoryData)
  | [] => some []
  | r :: rs =>
    match collectRepository fuel now q r, collectRepositories fuel now q rs with
    | some d, some ds => some (d :: ds)
    | _, _ => none

/-- Modelled from the spec: the tag set of section 4.5, the resource attributes
enabled in the capability set; a disabled attribute is omitted. -/
def resourceTags (cap : Capability) (vendor org : String) :
    List (ResourceAttribute × String) :=
  [(ResourceAttribute.vendorName, vendor), (ResourceAttribute.organizationName, org)].filter
    (fun t => cap.attributeEnabled t.1)

/-- Modelled from the spec: the enablement check of section 4.5.  A data point
of a disabled metric is never emitted. -/
def emit (cap : Capability) (tags : List (ResourceAttribute × String)) (now : Int)
    (m : Metric) (v : Int) : List MetricDataPoint :=
  if cap.metricEnabled m then [{ metric := m, value := v, attributes := tags, timestamp := now }]
  else []

/-- Modelled from the spec: the durations the pull-request-time metric of
section 4.5 is derived from, the time from creation to merge of each merged
pull request. -/
def pullRequestDurations (prs : List PullRequest) : List Int :=
  (prs.filter (fun pr => pr.merged)).map (fun pr => pr.mergedAt - pr.createdAt)

/-- Modelled from the spec: the pull-request-time data points of one
repository. -/
def pullRequestTimePoints (cap : Capability) (tags : List (ResourceAttribute × String))
    (now : Int) (prs : List PullRequest) : List MetricDataPoint :=
  (pullRequestDurations prs).flatMap (emit cap tags now .pullRequestTime)

/-- Modelled from the spec: the per-repository part of the MetricAggregator of
section 4.5: branch count, one branch-time point per stale branch,
pull-request time, contributor count (distinct identifiers of the
repository), vulnerability-alert count. -/
def repositoryPoints (cap : Capability) (tags : List (ResourceAttribute × String))
    (now : Int) (r : RepositoryData) : List MetricDataPoint :=
  emit cap tags now .branchCount r.branches.length
    ++ r.branches.flatMap (fun b =>
        match b.staleness with
        | some d => emit cap tags now .branchTime d
        | none => [])
    ++ pullRequestTimePoints cap tags now r.pullRequests
    ++ emit cap tags now .contributorCount (r.contributors.map (fun c => c.id)).dedup.length
    ++ emit cap tags now .vulnerabilityAlertCount r.alerts.length

/-- Modelled from the spec: the MetricAggregator of section 4.5.  The
repository count comes first, then the data points of each repository in the
order the repositories were discovered (section 5). -/
def aggregate (cap : Capability) (tags : List (ResourceAttribute × String)) (now : Int)
    (repos : List RepositoryData) : List MetricDataPoint :=
  emit cap tags now .repositoryCount repos.length
    ++ repos.flatMap (repositoryPoints cap tags now)

/-- Modelled from the spec: one scrape cycle (section 2, control flow):
OrgValidator, RepositoryLister, the per-repository collectors, the
MetricAggregator.  `github_scraper.go`, which defines `scrape`, is missing
from the source.  The result is `none` when the request bound `fuel` was
reached, otherwise the emitted data points or the fatal error. -/
def scrape (fuel : Nat) (cap : Capability) (vendor organization : String) (now : Int)
    (q : Queries) : Option (Except ScrapeError (List MetricDataPoint)) :=
  match q.resolveOrg organization with
  | .error _ => some (.error .OrgValidationError)
  | .ok none => some (.error .OrgNotFound)
  | .ok (some org) =>
    match listRepositories fuel q with
    | none => none
    | some (.error e) => some (.error e)
    | some (.ok repos) =>
      match collectRepositories fuel now q repos with
      | none => none
      | some collected => some (.ok (aggregate cap (resourceTags cap vendor org) now collected))

/-- The pages a connection serves: walked from `cursor`, the connection `fetch`
answers with exactly the pages `pages`, in this order; every page but the last
announces a next page, which is requested with the cursor that page returned,
and the last page announces none. -/
def servesPages {α : Type} (fetch : String → Except String (Page α)) :
    String → List (Page α) → Prop
  | _, [] => False
  | cursor, [page] => fetch cursor = .ok page ∧ page.hasNextPage = false
  | cursor, page :: next :: rest =>
    fetch cursor = .ok page ∧ page.hasNextPage = true ∧
      servesPages fetch page.cursor (next :: rest)

/-- The walk of a connection from `cursor` ends within `n` requests, at a page
that announces no next page or at a page-fetch error. -/
def endsWithin {α : Type} (fetch : String → Except String (Page α)) : Nat → String → Bool
  | 0, _ => false
  | n + 1, cursor =>
    match fetch cursor with
    | .error _ => true
    | .ok page => !page.hasNextPage || endsWithin fetch n page.cursor

/-- The pull-request-time data points among emitted data points. -/
def pullRequestTimeOf (pts : List MetricDataPoint) : List MetricDataPoint :=
  pts.filter (fun p => decide (p.metric = Metric.pullRequestTime))

/-! ## The fixtures of `TestScrape` (github_scraper_test.go) -/

/-- A connection that serves one page with the given nodes and no next page,
whatever the cursor. -/
def singlePage {α : Type} (nodes : List α) : String → Except String (Page α) :=
  fun _ => .ok { nodes := nodes, cursor := "", hasNextPage := false }

/-- The mock server of the case `TestNoRepos` (github_scraper_test.go, lines
40-63): the login check answers with the organization `liatrio`, the
repository search with a count of 0 and no nodes; the other responses are left
at their zero values. -/
def testNoRepos : Queries :=
  { resolveOrg := fun _ => .ok (some "liatrio")
    searchRepositories := singlePage []
    branches := fun _ => singlePage []
    pullRequests := fun _ => singlePage []
    contributors := fun _ => singlePage []
    vulnerabilityAlerts := fun _ => singlePage []
    commitHistory := fun _ _ => singlePage [] }

/-- The mock server of the case `TestHappyPath` (github_scraper_test.go, lines
65-178), scraped at time `now`: one repository `repo1`, one branch `main`
(ahead 0, behind 1), two pull requests (the first not merged, the second
merged, timestamps at their zero values), one commit a day (86400 seconds)
old, one contributor, two alerts (HIGH and MODERATE). -/
def testHappyPath (now : Int) : Queries :=
  { resolveOrg := fun _ => .ok (some "liatrio")
    searchRepositories := singlePage [{ name := "repo1" }]
    branches := fun _ => singlePage [{ name := "main", aheadBy := 0, behindBy := 1 }]
    pullRequests := fun _ =>
      singlePage [{ merged := false, createdAt := 0, mergedAt := 0 },
                  { merged := true, createdAt := 0, mergedAt := 0 }]
    contributors := fun _ => singlePage [{ id := 1 }]
    vulnerabilityAlerts := fun _ => singlePage [{ severity := .HIGH }, { severity := .MODERATE }]
    commitHistory := fun _ _ =>
      singlePage [{ committedDate := now - 86400, additions := 10, deletions := 9 }] }

/-- The capability set `TestScrape` configures (github_scraper_test.go, lines
185-187): `DefaultMetricsBuilderConfig()` with the vulnerability-alert count
enabled. -/
def testCapability : Capability :=
  capabilityOf DefaultMetricsBuilderConfig true

end Githubscraper

/-! ## Theorems: the generated configuration -/

namespace Metadata

/-- C1: the metrics part of `DefaultMetricsBuilderConfig()` is
`DefaultMetricsConfig()`; it has `Enabled = true` for branch count, branch
time, repository count and pull-request time and `Enabled = false` for
contributor count, and contributor count is the only field of `MetricsConfig`
that is disabled by default. -/
theorem default_metrics_enabled_except_contributor_count :
    DefaultMetricsBuilderConfig.Metrics = DefaultMetricsConfig ∧
    DefaultMetricsConfig.GitRepositoryBranchCount.Enabled = true ∧
    DefaultMetricsConfig.GitRepositoryBranchTime.Enabled = true ∧
    DefaultMetricsConfig.GitRepositoryCount.Enabled = true ∧
    DefaultMetricsConfig.GitRepositoryPullRequestTime.Enabled = true ∧
    DefaultMetricsConfig.GitRepositoryContributorCount.Enabled = false ∧
    (∀ f : MetricsField,
      (f.get DefaultMetricsBuilderConfig.Metrics).Enabled = false ↔
        f = MetricsField.GitRepositoryContributorCount) := by
  refine ⟨rfl, rfl, rfl, rfl, rfl, rfl, ?_⟩
  intro f
  cases f <;> simp [MetricsField.get, DefaultMetricsBuilderConfig, DefaultMetricsConfig]

/-- C2: the resource-attribute part of `DefaultMetricsBuilderConfig()` is
`DefaultResourceAttributesConfig()`; both the vendor-name and the
organization-name resource attribute are enabled, so no field of
`ResourceAttributesConfig` is disabled by default. -/
theorem default_resource_attributes_all_enabled :
    DefaultMetricsBuilderConfig.ResourceAttributes = DefaultResourceAttributesConfig ∧
    DefaultResourceAttributesConfig.GitVendorName.Enabled = true ∧
    DefaultResourceAttributesConfig.OrganizationName.Enabled = true ∧
    (∀ f : ResourceAttributesField,
      (f.get DefaultMetricsBuilderConfig.ResourceAttributes).Enabled = true) := by
  refine ⟨rfl, rfl, rfl, ?_⟩
  intro f
  cases f <;> rfl

/-- C5, as stated, fails: the selector `GitRepositoryCveCount` resolves to no
field of `MetricsConfig`; none of its fields carries that name, so the struct
has no vulnerability-alert (CVE) count flag. -/
theorem metricsConfig_has_no_cve_count_field :
    MetricsConfig.fieldByName "GitRepositoryCveCount" = none ∧
    "GitRepositoryCveCount" ∉ MetricsField.all.map MetricsField.goName := by
  decide

/-- C5, amended: `MetricsConfig` carries an enablement flag of its own for
exactly five metrics, branch count, branch time, contributor count,
repository count and pull-request time, and for no other name; each flag of
`DefaultMetricsBuilderConfig()` can be set to enabled, and setting one flag
leaves the other four as they were. -/
theorem metricsConfig_flags_are_the_five_metrics :
    MetricsField.all.map MetricsField.goName =
      ["GitRepositoryBranchCount", "GitRepositoryBranchTime",
       "GitRepositoryContributorCount", "GitRepositoryCount",
       "GitRepositoryPullRequestTime"] ∧
    (∀ f : MetricsField, f ∈ MetricsField.all) ∧
    MetricsField.all.Nodup ∧
    (∀ name : String,
      (MetricsConfig.fieldByName name).isSome = true ↔
        name ∈ ["GitRepositoryBranchCount", "GitRepositoryBranchTime",
                "GitRepositoryContributorCount", "GitRepositoryCount",
                "GitRepositoryPullRequestTime"]) ∧
    (∀ f : MetricsField, MetricsConfig.fieldByName f.goName = some f) ∧
    (∀ f : MetricsField,
      (f.get (f.setEnabled DefaultMetricsBuilderConfig.Metrics true)).Enabled = true) ∧
    (∀ (cfg : MetricsConfig) (b : Bool) (f g : MetricsField),
      (f.get (f.setEnabled cfg b)).Enabled = b ∧
      (g ≠ f → g.get (f.setEnabled cfg b) = g.get cfg)) := by
  refine ⟨rfl, ?_, by decide, ?_, ?_, ?_, ?_⟩
  · intro f
    cases f <;> decide
  · intro name
    rw [MetricsConfig.fieldByName, List.find?_isSome]
    constructor
    · rintro ⟨f, -, hf⟩
      have hname : f.goName = name := by simpa using hf
      rw [← hname]
      cases f <;> decide
    · intro hname
      simp only [List.mem_cons, List.mem_singleton, List.not_mem_nil, or_false] at hname
      rcases hname with h | h | h | h | h
      · exact ⟨.GitRepositoryBranchCount, by decide, by rw [h]; decide⟩
      · exact ⟨.GitRepositoryBranchTime, by decide, by rw [h]; decide⟩
      · exact ⟨.GitRepositoryContributorCount, by decide, by rw [h]; decide⟩
      · exact ⟨.GitRepositoryCount, by decide, by rw [h]; decide⟩
      · exact ⟨.GitRepositoryPullRequestTime, by decide, by rw [h]; decide⟩
  · intro f
    cases f <;> decide
  · intro f
    cases f <;> rfl
  · intro cfg b f g
    cases f <;> cases g <;> simp [MetricsField.get, MetricsField.setEnabled]

/-- C6, as stated, fails: the configuration key of the field
`GitRepositoryBranchCount` is `git.repository.branch.count`, which is not the
catalog name `repository.branch.count`. -/
theorem branch_count_key_differs_from_catalog_name :
    MetricsField.key MetricsField.GitRepositoryBranchCount = "git.repository.branch.count" ∧
    catalogMetricName MetricsField.GitRepositoryBranchCount = "repository.branch.count" ∧
    MetricsField.key MetricsField.GitRepositoryBranchCount ≠
      catalogMetricName MetricsField.GitRepositoryBranchCount := by
  decide

/-- C6, amended: the five metrics of `MetricsConfig` are configured under the
catalog names prefixed with `git.`, that is under
`git.repository.branch.count`, `git.repository.branch.time`,
`git.repository.contributor.count`, `git.repository.count` and
`git.repository.pull_request.time`, and the five keys are pairwise distinct. -/
theorem metrics_keys_are_git_catalog_names :
    (∀ f : MetricsField, f.key = "git." ++ catalogMetricName f) ∧
    MetricsField.all.map MetricsField.key =
      ["git.repository.branch.count", "git.repository.branch.time",
       "git.repository.contributor.count", "git.repository.count",
       "git.repository.pull_request.time"] ∧
    (MetricsField.all.map MetricsField.key).Nodup ∧
    (∀ f g : MetricsField, f.key = g.key → f = g) := by
  refine ⟨?_, rfl, by decide, ?_⟩
  · intro f
    cases f <;> decide
  · intro f g
    cases f <;> cases g <;> decide

/-- C7, as stated, fails: the configuration key of the field `GitVendorName` is
`git.vendor.name`, which is not the catalog name `vendor.name`. -/
theorem vendor_name_key_differs_from_catalog_name :
    ResourceAttributesField.key ResourceAttributesField.GitVendorName = "git.vendor.name" ∧
    catalogResourceAttributeName ResourceAttributesField.GitVendorName = "vendor.name" ∧
    ResourceAttributesField.key ResourceAttributesField.GitVendorName ≠
      catalogResourceAttributeName ResourceAttributesField.GitVendorName := by
  decide

/-- C7, amended: the two resource attributes of `ResourceAttributesConfig` are
configured under `git.vendor.name` and `organization.name`: the key of
`OrganizationName` equals its catalog name, and the key of `GitVendorName` is
its catalog name `vendor.name` prefixed with `git.`. -/
theorem resource_attribute_keys :
    ResourceAttributesField.all.map ResourceAttributesField.key =
      ["git.vendor.name", "organization.name"] ∧
    ResourceAttributesField.key ResourceAttributesField.OrganizationName =
      catalogResourceAttributeName ResourceAttributesField.OrganizationName ∧
    ResourceAttributesField.key ResourceAttributesField.GitVendorName =
      "git." ++ catalogResourceAttributeName ResourceAttributesField.GitVendorName := by
  decide

/-- C8: when the parser is not nil and decoding it into the `MetricConfig`
succeeds, `Unmarshal` returns no error and afterwards `enabledSetByUser` is
true exactly when the parser has the key `enabled` set; with the key absent
the field is false afterwards, whatever it was before. -/
theorem Unmarshal_decoded_sets_enabledSetByUser {Conf Err : Type} (ops : ConfOps Conf Err)
    (ms : MetricConfig) (p : Conf) (hdec : (ops.Unmarshal p ms).2 = none) :
    (MetricConfig.Unmarshal ops ms (some p)).2 = none ∧
    ((MetricConfig.Unmarshal ops ms (some p)).1.enabledSetByUser = true ↔
      ops.IsSet p "enabled" = true) ∧
    (ops.IsSet p "enabled" = false →
      (MetricConfig.Unmarshal ops ms (some p)).1.enabledSetByUser = false) := by
  simp [MetricConfig.Unmarshal, hdec]

/-- C8 at a concrete input: the empty configuration map decodes into a
`MetricConfig` whose `enabledSetByUser` was true; the call returns no error
and the field is false afterwards. -/
theorem Unmarshal_decoded_sets_enabledSetByUser_witness :
    (enabledConfOps.Unmarshal { enabled := none }
      { Enabled := true, enabledSetByUser := true }).2 = none ∧
    ((MetricConfig.Unmarshal enabledConfOps { Enabled := true, enabledSetByUser := true }
        (some { enabled := none })).2 = none ∧
     ((MetricConfig.Unmarshal enabledConfOps { Enabled := true, enabledSetByUser := true }
        (some { enabled := none })).1.enabledSetByUser = true ↔
      enabledConfOps.IsSet { enabled := none } "enabled" = true) ∧
     (enabledConfOps.IsSet { enabled := none } "enabled" = false →
      (MetricConfig.Unmarshal enabledConfOps { Enabled := true, enabledSetByUser := true }
        (some { enabled := none })).1.enabledSetByUser = false)) :=
  ⟨by decide,
   Unmarshal_decoded_sets_enabledSetByUser enabledConfOps
     { Enabled := true, enabledSetByUser := true } { enabled := none } (by decide)⟩

/-- C9: `Unmarshal` called with a nil parser returns no error and leaves the
`MetricConfig`, both `Enabled` and `enabledSetByUser`, unchanged. -/
theorem Unmarshal_nil_is_noop {Conf Err : Type} (ops : ConfOps Conf Err) (ms : MetricConfig) :
    (MetricConfig.Unmarshal ops ms none).2 = none ∧
    (MetricConfig.Unmarshal ops ms none).1.Enabled = ms.Enabled ∧
    (MetricConfig.Unmarshal ops ms none).1.enabledSetByUser = ms.enabledSetByUser := by
  simp [MetricConfig.Unmarshal]

/-- C10: for a parser that is not nil, `Unmarshal` returns an error exactly
when decoding the parser into the `MetricConfig` fails; the error returned is
then the decoding error, and `enabledSetByUser` keeps the value it had before
the call. -/
theorem Unmarshal_error_iff_decode_error {Conf Err : Type} (ops : ConfOps Conf Err)
    (ms : MetricConfig) (p : Conf) :
    ((MetricConfig.Unmarshal ops ms (some p)).2.isSome = true ↔
      (ops.Unmarshal p ms).2.isSome = true) ∧
    (∀ e : Err, (ops.Unmarshal p ms).2 = some e →
      (MetricConfig.Unmarshal ops ms (some p)).2 = some e ∧
      (MetricConfig.Unmarshal ops ms (some p)).1.enabledSetByUser = ms.enabledSetByUser) := by
  cases hdec : (ops.Unmarshal p ms).2 <;> simp [MetricConfig.Unmarshal, hdec]

end Metadata

/-! ## Theorems: the scrape cycle -/

namespace Githubscraper

open Metadata

theorem mem_emit {cap : Capability} {tags : List (ResourceAttribute × String)} {now : Int}
    {m : Metric} {v : Int} {p : MetricDataPoint} (hp : p ∈ emit cap tags now m v) :
    p = { metric := m, value := v, attributes := tags, timestamp := now } := by
  unfold emit at hp
  split at hp
  · simpa using hp
  · simp at hp

theorem pullRequestTimeOf_append (a b : List MetricDataPoint) :
    pullRequestTimeOf (a ++ b) = pullRequestTimeOf a ++ pullRequestTimeOf b := by
  simp [pullRequestTimeOf]

theorem pullRequestTimeOf_emit_other (cap : Capability)
    (tags : List (ResourceAttribute × String)) (now : Int) (m : Metric) (v : Int)
    (hm : m ≠ Metric.pullRequestTime) :
    pullRequestTimeOf (emit cap tags now m v) = [] := by
  unfold pullRequestTimeOf
  rw [List.filter_eq_nil_iff]
  intro p hp
  rw [mem_emit hp]
  simpa using hm

/-- The pull-request-time data points of a repository are one point per
duration when the metric is enabled, and none when it is disabled. -/
theorem pullRequestTimePoints_eq (cap : Capability) (tags : List (ResourceAttribute × String))
    (now : Int) (prs : List PullRequest) :
    pullRequestTimePoints cap tags now prs =
      if cap.metricEnabled Metric.pullRequestTime = true then
        (pullRequestDurations prs).map (fun v =>
          { metric := Metric.pullRequestTime, value := v, attributes := tags, timestamp := now })
      else [] := by
  unfold pullRequestTimePoints
  generalize pullRequestDurations prs = ds
  induction ds with
  | nil => simp
  | cons d ds ih =>
    rw [List.flatMap_cons, ih]
    by_cases h : cap.metricEnabled Metric.pullRequestTime = true <;> simp [emit, h]

theorem pullRequestTimeOf_pullRequestTimePoints (cap : Capability)
    (tags : List (ResourceAttribute × String)) (now : Int) (prs : List PullRequest) :
    pullRequestTimeOf (pullRequestTimePoints cap tags now prs) =
      pullRequestTimePoints cap tags now prs := by
  unfold pullRequestTimeOf
  rw [List.filter_eq_self]
  intro p hp
  rw [pullRequestTimePoints_eq] at hp
  split at hp
  · obtain ⟨v, _, rfl⟩ := List.mem_map.mp hp
    simp
  · simp at hp

/-- Among the data points of one repository, the pull-request-time points are
exactly those the pull-request reduction produced. -/
theorem pullRequestTimeOf_repositoryPoints (cap : Capability)
    (tags : List (ResourceAttribute × String)) (now : Int) (r : RepositoryData) :
    pullRequestTimeOf (repositoryPoints cap tags now r) =
      pullRequestTimePoints cap tags now r.pullRequests := by
  have hbranch : pullRequestTimeOf (r.branches.flatMap (fun b =>
      match b.staleness with
      | some d => emit cap tags now Metric.branchTime d
      | none => [])) = [] := by
    unfold pullRequestTimeOf
    rw [List.filter_eq_nil_iff]
    intro p hp
    obtain ⟨b, _, hb⟩ := List.mem_flatMap.mp hp
    cases hs : b.staleness with
    | none => simp [hs] at hb
    | some d =>
      simp only [hs] at hb
      rw [mem_emit hb]
      simp
  unfold repositoryPoints
  rw [pullRequestTimeOf_append, pullRequestTimeOf_append, pullRequestTimeOf_append,
    pullRequestTimeOf_append, hbranch, pullRequestTimeOf_pullRequestTimePoints,
    pullRequestTimeOf_emit_other _ _ _ _ _ (by decide),
    pullRequestTimeOf_emit_other _ _ _ _ _ (by decide),
    pullRequestTimeOf_emit_other _ _ _ _ _ (by decide)]
  simp

theorem pullRequestDurations_remove_unmerged (l₁ l₂ : List PullRequest) (pr : PullRequest)
    (hpr : pr.merged = false) :
    pullRequestDurations (l₁ ++ pr :: l₂) = pullRequestDurations (l₁ ++ l₂) := by
  simp [pullRequestDurations, List.filter_append, List.filter_cons, hpr]

/-- Pagination is complete and order-preserving: when the connection serves
the pages `pages` and the request bound covers them, the walk returns, without
error, what was merged before followed by the nodes of all pages in order. -/
theorem paginate_of_servesPages {α : Type} (fetch : String → Except String (Page α)) :
    ∀ (pages : List (Page α)) (fuel : Nat) (cursor : String) (acc : List α),
      servesPages fetch cursor pages → pages.length ≤ fuel →
      paginate fetch fuel cursor acc = some (acc ++ pages.flatMap (fun p => p.nodes), none)
  | [], _, _, _, h, _ => by simp [servesPages] at h
  | [_], 0, _, _, _, hlen => by simp at hlen
  | [page], fuel + 1, cursor, acc, h, _ => by
    simp only [servesPages] at h
    simp [paginate, h.1, h.2]
  | _ :: _ :: _, 0, _, _, _, hlen => by simp at hlen
  | page :: next :: rest, fuel + 1, cursor, acc, h, hlen => by
    simp only [servesPages] at h
    obtain ⟨hfetch, hnext, hrest⟩ := h
    have ih := paginate_of_servesPages fetch (next :: rest) fuel page.cursor (acc ++ page.nodes)
      hrest (by simpa using hlen)
    simp [paginate, hfetch, hnext, ih, List.append_assoc]

/-- A walk that ends within the request bound returns: with all pages, or with
the pages merged before a page-fetch error. -/
theorem paginate_isSome_of_endsWithin {α : Type} (fetch : String → Except String (Page α)) :
    ∀ (fuel : Nat) (cursor : String) (acc : List α),
      endsWithin fetch fuel cursor = true →
      ∃ (nodes : List α) (err : Option String), paginate fetch fuel cursor acc = some (nodes, err)
  | 0, _, _, h => by simp [endsWithin] at h
  | fuel + 1, cursor, acc, h => by
    unfold endsWithin at h
    unfold paginate
    cases hfetch : fetch cursor with
    | error e => exact ⟨acc, some e, rfl⟩
    | ok page =>
      simp only [hfetch] at h
      by_cases hnext : page.hasNextPage = true
      · simp only [hnext, Bool.not_true, Bool.false_or] at h
        simpa [hnext] using
          paginate_isSome_of_endsWithin fetch fuel page.cursor (acc ++ page.nodes) h
      · exact ⟨acc ++ page.nodes, none, by simp [hnext]⟩

theorem resolveStaleness_isSome (fuel : Nat) (now : Int) (q : Queries) (repo : String)
    (b : Branch) (hhistory : endsWithin (q.commitHistory repo b.name) fuel "" = true) :
    ∃ d : BranchData, resolveStaleness fuel now q repo b = some d := by
  unfold resolveStaleness
  split
  · exact ⟨_, rfl⟩
  · obtain ⟨commits, err, hwalk⟩ :=
      paginate_isSome_of_endsWithin (q.commitHistory repo b.name) fuel "" [] hhistory
    rw [hwalk]
    cases err with
    | none => exact ⟨_, rfl⟩
    | some e => exact ⟨_, rfl⟩

theorem resolveBranches_isSome (fuel : Nat) (now : Int) (q : Queries) (repo : String)
    (hhistory : ∀ branch : String, endsWithin (q.commitHistory repo branch) fuel "" = true) :
    ∀ bs : List Branch, ∃ ds : List BranchData, resolveBranches fuel now q repo bs = some ds
  | [] => ⟨[], rfl⟩
  | b :: bs => by
    obtain ⟨d, hd⟩ := resolveStaleness_isSome fuel now q repo b (hhistory b.name)
    obtain ⟨ds, hds⟩ := resolveBranches_isSome fuel now q repo hhistory bs
    exact ⟨d :: ds, by simp [resolveBranches, hd, hds]⟩

/-- The collectors of one repository return when every connection of the
repository ends within the request bound; the pull requests collected are the
nodes of all pages its pull-request connection serves. -/
theorem collectRepository_of_servesPages (fuel : Nat) (now : Int) (q : Queries)
    (r : Repository) (prPages : List (Page PullRequest))
    (hprs : servesPages (q.pullRequests r.name) "" prPages) (hprFuel : prPages.length ≤ fuel)
    (hbranches : endsWithin (q.branches r.name) fuel "" = true)
    (hcontributors : endsWithin (q.contributors r.name) fuel "" = true)
    (halerts : endsWithin (q.vulnerabilityAlerts r.name) fuel "" = true)
    (hhistory : ∀ branch : String, endsWithin (q.commitHistory r.name branch) fuel "" = true) :
    ∃ d : RepositoryData, collectRepository fuel now q r = some d ∧ d.repository = r ∧
      d.pullRequests = prPages.flatMap (fun p => p.nodes) := by
  obtain ⟨bs, eb, hb⟩ := paginate_isSome_of_endsWithin (q.branches r.name) fuel "" [] hbranches
  obtain ⟨cs, ec, hc⟩ :=
    paginate_isSome_of_endsWithin (q.contributors r.name) fuel "" [] hcontributors
  obtain ⟨as, ea, ha⟩ :=
    paginate_isSome_of_endsWithin (q.vulnerabilityAlerts r.name) fuel "" [] halerts
  have hp := paginate_of_servesPages (q.pullRequests r.name) prPages fuel "" [] hprs hprFuel
  obtain ⟨bds, hbds⟩ := resolveBranches_isSome fuel now q r.name hhistory bs
  refine ⟨{ repository := r, branches := bds, pullRequests := prPages.flatMap (fun p => p.nodes),
            contributors := cs, alerts := as }, ?_, rfl, rfl⟩
  simp [collectRepository, hb, hc, ha, hp, hbds]

theorem collectRepositories_of_servesPages (fuel : Nat) (now : Int) (q : Queries)
    (prPages : Repository → List (Page PullRequest)) :
    ∀ rs : List Repository,
      (∀ r ∈ rs, servesPages (q.pullRequests r.name) "" (prPages r) ∧
        (prPages r).length ≤ fuel) →
      (∀ r ∈ rs, endsWithin (q.branches r.name) fuel "" = true ∧
        endsWithin (q.contributors r.name) fuel "" = true ∧
        endsWithin (q.vulnerabilityAlerts r.name) fuel "" = true ∧
        ∀ branch : String, endsWithin (q.commitHistory r.name branch) fuel "" = true) →
      ∃ ds : List RepositoryData, collectRepositories fuel now q rs = some ds ∧
        ds.map (fun d => d.repository) = rs ∧
        ∀ d ∈ ds, d.pullRequests = (prPages d.repository).flatMap (fun p => p.nodes)
  | [], _, _ => ⟨[], rfl, rfl, by simp⟩
  | r :: rs, hprs, hothers => by
    obtain ⟨hb, hc, ha, hh⟩ := hothers r (List.mem_cons_self r rs)
    obtain ⟨hp, hpFuel⟩ := hprs r (List.mem_cons_self r rs)
    obtain ⟨d, hd, hrepo, hpulls⟩ :=
      collectRepository_of_servesPages fuel now q r (prPages r) hp hpFuel hb hc ha hh
    obtain ⟨ds, hds, hmap, hall⟩ := collectRepositories_of_servesPages fuel now q prPages rs
      (fun x hx => hprs x (List.mem_cons_of_mem r hx))
      (fun x hx => hothers x (List.mem_cons_of_mem r hx))
    refine ⟨d :: ds, by simp [collectRepositories, hd, hds], by simp [hrepo, hmap], ?_⟩
    intro x hx
    rcases List.mem_cons.mp hx with rfl | hmem
    · rw [hrepo]; exact hpulls
    · exact hall x hmem

/-- C3: for every scrape whose organization lookup succeeds and whose
repository search returns an empty node list and no further page (a count of
0), under the default metrics builder configuration (the vulnerability-alert
flag either way) the scrape returns no error and emits exactly one data point,
the repository count with value 0, so no branch, pull-request, contributor or
vulnerability-alert data point; under every capability set the scrape returns
no error and emits nothing but a repository count of 0.  One request suffices
(`fuel + 1`). -/
theorem scrape_no_repositories (fuel : Nat) (cap : Capability) (cveCount : Bool)
    (vendor organization org : String) (now : Int) (q : Queries) (page : Page Repository)
    (horg : q.resolveOrg organization = .ok (some org))
    (hsearch : q.searchRepositories "" = .ok page)
    (hnodes : page.nodes = []) (hlast : page.hasNextPage = false) :
    (∃ pts : List MetricDataPoint,
      scrape (fuel + 1) (capabilityOf DefaultMetricsBuilderConfig cveCount)
        vendor organization now q = some (.ok pts) ∧
      pts = [{ metric := Metric.repositoryCount, value := 0,
               attributes := [(ResourceAttribute.vendorName, vendor),
                              (ResourceAttribute.organizationName, org)],
               timestamp := now }] ∧
      (∃ p ∈ pts, p.metric = Metric.repositoryCount ∧ p.value = 0) ∧
      (∀ p ∈ pts, p.metric ≠ Metric.branchCount ∧ p.metric ≠ Metric.branchTime ∧
        p.metric ≠ Metric.pullRequestTime ∧ p.metric ≠ Metric.contributorCount ∧
        p.metric ≠ Metric.vulnerabilityAlertCount)) ∧
    (∃ pts : List MetricDataPoint,
      scrape (fuel + 1) cap vendor organization now q = some (.ok pts) ∧
      ∀ p ∈ pts, p.metric = Metric.repositoryCount ∧ p.value = 0) := by
  have hlist : listRepositories (fuel + 1) q = some (.ok []) := by
    simp [listRepositories, paginate, hsearch, hlast, hnodes]
  have hscrape : ∀ c : Capability,
      scrape (fuel + 1) c vendor organization now q =
        some (.ok (emit c (resourceTags c vendor org) now Metric.repositoryCount 0)) := by
    intro c
    simp [scrape, horg, hlist, collectRepositories, aggregate]
  refine ⟨⟨_, hscrape _, ?_, ?_, ?_⟩, ⟨_, hscrape cap, ?_⟩⟩
  · simp [emit, resourceTags, capabilityOf, DefaultMetricsBuilderConfig, DefaultMetricsConfig,
      DefaultResourceAttributesConfig]
  · simp [emit, capabilityOf, DefaultMetricsBuilderConfig, DefaultMetricsConfig]
  · intro p hp
    rw [mem_emit hp]
    simp
  · intro p hp
    rw [mem_emit hp]
    simp

/-- C3 at the `TestNoRepos` server under the configuration of `TestScrape`
(the default configuration with the vulnerability-alert count enabled): the
scrape emits the repository count 0 and nothing else. -/
theorem scrape_no_repositories_witness :
    testNoRepos.resolveOrg "liatrio" = .ok (some "liatrio") ∧
    testNoRepos.searchRepositories "" =
      .ok { nodes := [], cursor := "", hasNextPage := false } ∧
    ((∃ pts : List MetricDataPoint,
      scrape 1 (capabilityOf DefaultMetricsBuilderConfig true)
        "github" "liatrio" 1000 testNoRepos = some (.ok pts) ∧
      pts = [{ metric := Metric.repositoryCount, value := 0,
               attributes := [(ResourceAttribute.vendorName, "github"),
                              (ResourceAttribute.organizationName, "liatrio")],
               timestamp := 1000 }] ∧
      (∃ p ∈ pts, p.metric = Metric.repositoryCount ∧ p.value = 0) ∧
      (∀ p ∈ pts, p.metric ≠ Metric.branchCount ∧ p.metric ≠ Metric.branchTime ∧
        p.metric ≠ Metric.pullRequestTime ∧ p.metric ≠ Metric.contributorCount ∧
        p.metric ≠ Metric.vulnerabilityAlertCount)) ∧
     (∃ pts : List MetricDataPoint,
      scrape 1 testCapability "github" "liatrio" 1000 testNoRepos = some (.ok pts) ∧
      ∀ p ∈ pts, p.metric = Metric.repositoryCount ∧ p.value = 0)) :=
  ⟨rfl, rfl,
   scrape_no_repositories 0 testCapability true "github" "liatrio" "liatrio" 1000 testNoRepos
     { nodes := [], cursor := "", hasNextPage := false } rfl rfl rfl rfl⟩

/-- C4: when the organization lookup succeeds, the repository search serves
its pages, the pull-request connection of every listed repository serves its
pages, the other connections end, and the request bound covers them, the
scrape returns data points: the aggregate over the listed repositories, in
order.  For every listed repository, with the N pull requests its connection
serves of which M are merged, the pull-request-time data points emitted for it
(when the metric is enabled) carry exactly the M durations of the merged pull
requests, in order; every pull-request-time point is the duration of a merged
pull request, and taking an unmerged pull request out changes no
pull-request-time point. -/
theorem scrape_pull_request_time_from_merged_only (fuel : Nat) (cap : Capability)
    (vendor organization org : String) (now : Int) (q : Queries)
    (repoPages : List (Page Repository)) (prPages : Repository → List (Page PullRequest))
    (horg : q.resolveOrg organization = .ok (some org))
    (hrepos : servesPages q.searchRepositories "" repoPages)
    (hrepoFuel : repoPages.length ≤ fuel)
    (hprs : ∀ r ∈ repoPages.flatMap (fun p => p.nodes),
      servesPages (q.pullRequests r.name) "" (prPages r) ∧ (prPages r).length ≤ fuel)
    (hothers : ∀ r ∈ repoPages.flatMap (fun p => p.nodes),
      endsWithin (q.branches r.name) fuel "" = true ∧
      endsWithin (q.contributors r.name) fuel "" = true ∧
      endsWithin (q.vulnerabilityAlerts r.name) fuel "" = true ∧
      ∀ branch : String, endsWithin (q.commitHistory r.name branch) fuel "" = true) :
    ∃ (pts : List MetricDataPoint) (repos : List RepositoryData),
      scrape fuel cap vendor organization now q = some (.ok pts) ∧
      pts = aggregate cap (resourceTags cap vendor org) now repos ∧
      repos.map (fun r => r.repository) = repoPages.flatMap (fun p => p.nodes) ∧
      pullRequestTimeOf pts =
        repos.flatMap (fun r =>
          pullRequestTimeOf (repositoryPoints cap (resourceTags cap vendor org) now r)) ∧
      ∀ r ∈ repos,
        r.pullRequests = (prPages r.repository).flatMap (fun p => p.nodes) ∧
        (cap.metricEnabled Metric.pullRequestTime = true →
          (pullRequestTimeOf (repositoryPoints cap (resourceTags cap vendor org) now r)).map
              (fun p => p.value) =
            (r.pullRequests.filter (fun pr => pr.merged)).map
              (fun pr => pr.mergedAt - pr.createdAt) ∧
          (pullRequestTimeOf (repositoryPoints cap (resourceTags cap vendor org) now r)).length =
            (r.pullRequests.filter (fun pr => pr.merged)).length) ∧
        (∀ p ∈ pullRequestTimeOf (repositoryPoints cap (resourceTags cap vendor org) now r),
          ∃ pr ∈ r.pullRequests, pr.merged = true ∧ p.value = pr.mergedAt - pr.createdAt) ∧
        (∀ (l₁ l₂ : List PullRequest) (pr : PullRequest),
          r.pullRequests = l₁ ++ pr :: l₂ → pr.merged = false →
          pullRequestTimeOf
              (repositoryPoints cap (resourceTags cap vendor org) now
                { r with pullRequests := l₁ ++ l₂ }) =
            pullRequestTimeOf (repositoryPoints cap (resourceTags cap vendor org) now r)) := by
  have hlist : listRepositories fuel q = some (.ok (repoPages.flatMap (fun p => p.nodes))) := by
    have hwalk := paginate_of_servesPages q.searchRepositories repoPages fuel "" [] hrepos
      hrepoFuel
    simp [listRepositories, hwalk]
  obtain ⟨repos, hcollected, hmap, hpulls⟩ :=
    collectRepositories_of_servesPages fuel now q prPages _ hprs hothers
  refine ⟨aggregate cap (resourceTags cap vendor org) now repos, repos, ?_, rfl, hmap, ?_, ?_⟩
  · simp [scrape, horg, hlist, hcollected]
  · rw [aggregate, pullRequestTimeOf_append,
      pullRequestTimeOf_emit_other _ _ _ _ _ (by decide), List.nil_append]
    unfold pullRequestTimeOf
    rw [List.filter_flatMap]
  intro r hr
  refine ⟨hpulls r hr, ?_, ?_, ?_⟩
  · intro hen
    rw [pullRequestTimeOf_repositoryPoints, pullRequestTimePoints_eq]
    simp [hen, pullRequestDurations, Function.comp_def]
  · intro p hp
    rw [pullRequestTimeOf_repositoryPoints, pullRequestTimePoints_eq] at hp
    split at hp
    · obtain ⟨v, hv, rfl⟩ := List.mem_map.mp hp
      obtain ⟨pr, hpr, rfl⟩ := List.mem_map.mp hv
      rw [List.mem_filter] at hpr
      exact ⟨pr, hpr.1, by simpa using hpr.2, rfl⟩
    · simp at hp
  · intro l₁ l₂ pr hsplit hunmerged
    rw [pullRequestTimeOf_repositoryPoints, pullRequestTimeOf_repositoryPoints,
      pullRequestTimePoints_eq, pullRequestTimePoints_eq, hsplit]
    simp only [pullRequestDurations_remove_unmerged l₁ l₂ pr hunmerged]

/-- C4 at the `TestHappyPath` server under the configuration of `TestScrape`
(one repository, two pull requests in one page, the first not merged, the
second merged): with a request bound of 1 the scrape returns five data points,
and its single pull-request-time data point comes from the merged pull
request. -/
theorem scrape_pull_request_time_from_merged_only_witness :
    (testHappyPath 1000000).resolveOrg "liatrio" = .ok (some "liatrio") ∧
    servesPages (testHappyPath 1000000).searchRepositories ""
      [{ nodes := [{ name := "repo1" }], cursor := "", hasNextPage := false }] ∧
    servesPages ((testHappyPath 1000000).pullRequests "repo1") ""
      [{ nodes := [{ merged := false, createdAt := 0, mergedAt := 0 },
                   { merged := true, createdAt := 0, mergedAt := 0 }],
         cursor := "", hasNextPage := false }] ∧
    scrape 1 testCapability "github" "liatrio" 1000000 (testHappyPath 1000000) =
      some (.ok
        [{ metric := Metric.repositoryCount, value := 1,
           attributes := resourceTags testCapability "github" "liatrio", timestamp := 1000000 },
         { metric := Metric.branchCount, value := 1,
           attributes := resourceTags testCapability "github" "liatrio", timestamp := 1000000 },
         { metric := Metric.branchTime, value := 86400,
           attributes := resourceTags testCapability "github" "liatrio", timestamp := 1000000 },
         { metric := Metric.pullRequestTime, value := 0,
           attributes := resourceTags testCapability "github" "liatrio", timestamp := 1000000 },
         { metric := Metric.vulnerabilityAlertCount, value := 2,
           attributes := resourceTags testCapability "github" "liatrio",
           timestamp := 1000000 }]) ∧
    ∃ (pts : List MetricDataPoint) (repos : List RepositoryData),
      scrape 1 testCapability "github" "liatrio" 1000000 (testHappyPath 1000000) =
        some (.ok pts) ∧
      pts = aggregate testCapability (resourceTags testCapability "github" "liatrio")
        1000000 repos ∧
      repos.map (fun r => r.repository) = [{ name := "repo1" }] ∧
      pullRequestTimeOf pts =
        repos.flatMap (fun r =>
          pullRequestTimeOf
            (repositoryPoints testCapability (resourceTags testCapability "github" "liatrio")
              1000000 r)) ∧
      ∀ r ∈ repos,
        r.pullRequests =
          [{ merged := false, createdAt := 0, mergedAt := 0 },
           { merged := true, createdAt := 0, mergedAt := 0 }] ∧
        (testCapability.metricEnabled Metric.pullRequestTime = true →
          (pullRequestTimeOf
              (repositoryPoints testCapability (resourceTags testCapability "github" "liatrio")
                1000000 r)).map (fun p => p.value) =
            (r.pullRequests.filter (fun pr => pr.merged)).map
              (fun pr => pr.mergedAt - pr.createdAt) ∧
          (pullRequestTimeOf
              (repositoryPoints testCapability (resourceTags testCapability "github" "liatrio")
                1000000 r)).length =
            (r.pullRequests.filter (fun pr => pr.merged)).length) ∧
        (∀ p ∈ pullRequestTimeOf
            (repositoryPoints testCapability (resourceTags testCapability "github" "liatrio")
              1000000 r),
          ∃ pr ∈ r.pullRequests, pr.merged = true ∧ p.value = pr.mergedAt - pr.createdAt) ∧
        (∀ (l₁ l₂ : List PullRequest) (pr : PullRequest),
          r.pullRequests = l₁ ++ pr :: l₂ → pr.merged = false →
          pullRequestTimeOf
              (repositoryPoints testCapability (resourceTags testCapability "github" "liatrio")
                1000000 { r with pullRequests := l₁ ++ l₂ }) =
            pullRequestTimeOf
              (repositoryPoints testCapability (resourceTags testCapability "github" "liatrio")
                1000000 r)) :=
  ⟨rfl, ⟨rfl, rfl⟩, ⟨rfl, rfl⟩, rfl,
   scrape_pull_request_time_from_merged_only 1 testCapability "github" "liatrio" "liatrio"
     1000000 (testHappyPath 1000000)
     [{ nodes := [{ name := "repo1" }], cursor := "", hasNextPage := false }]
     (fun _ =>
       [{ nodes := [{ merged := false, createdAt := 0, mergedAt := 0 },
                    { merged := true, createdAt := 0, mergedAt := 0 }],
          cursor := "", hasNextPage := false }])
     rfl ⟨rfl, rfl⟩ (Nat.le_refl 1)
     (fun _ _ => ⟨⟨rfl, rfl⟩, Nat.le_refl 1⟩)
     (fun _ _ => ⟨rfl, rfl, rfl, fun _ => rfl⟩)⟩

end Githubscraper
